import Mathlib

/-
Verification of the bloom-bits indexing and matching core of the Atlantis
node (package ath / les callers under src, bloombits core modelled from the
design document where its source is not shipped).
-/

namespace Atlantis

/-- Bloom filter of one block, represented by the list of its set bit
positions (the source stores 2048 bits; positions outside [0,2047] never
occur for real blocks). -/
abbrev Bloom := List Nat

/-- Modelled from the spec: bit test on a block's bloom filter. -/
def bloomHas (b : Bloom) (bitIndex : Nat) : Bool :=
  b.contains bitIndex

/-- Modelled from the spec (bit-plane codec, source file not shipped):
packs the bits `f 0 .. f (n-1)` of one byte big-endian (offset `k` lands at
bit `7 - k` inside the byte, per the big-endian-bit-within-byte layout of
the design document). -/
def byteBits (f : Nat → Bool) : Nat → Nat
  | 0 => 0
  | k + 1 => byteBits f k ||| (if f k then 2 ^ (7 - k) else 0)

/-- Modelled from the spec: byte `j` of the bit-plane fragment for
`bitIndex` over the ordered section blooms; block offset `8*j + k`
contributes bit `7 - k` of this byte. -/
def fragmentByte (blooms : List Bloom) (bitIndex j : Nat) : Nat :=
  byteBits (fun k => bloomHas (blooms.getD (8 * j + k) []) bitIndex) 8

/-- Modelled from the spec: the bit-plane codec, mapping the ordered
sequence of per-block bloom filters of one section to the byte vector of
the fragment for `bitIndex`. -/
def bloomBitsEncode (blooms : List Bloom) (bitIndex : Nat) : List Nat :=
  (List.range ((blooms.length + 7) / 8)).map (fragmentByte blooms bitIndex)

/-- Modelled from the spec: testing bit `i` of a fragment reads byte `i/8`
and bit `i%8` within that byte (big-endian within the byte, so machine bit
`7 - i%8`). -/
def fragTestBit (frag : List Nat) (i : Nat) : Bool :=
  (frag.getD (i / 8) 0).testBit (7 - i % 8)

/-- Chain whose blocks all carry an empty bloom filter. -/
def chainEmptyBlooms : Nat → Bloom := fun _ => []

/-- Modelled from the spec: observable state of the section indexer
(`core.ChainIndexer`, source not shipped); `Sections` exposes
`(storedCount, lastHead, hasCheckpoint)` for status queries. -/
structure BloomIndexer where
  sectionSize : Nat
  storedSections : Nat
  lastHead : Nat
  hasCheckpoint : Bool
deriving DecidableEq

/-- Modelled from the spec: the indexer's status query
`Sections() -> (storedCount, lastHead, hasCheckpoint)`. -/
def Sections (idx : BloomIndexer) : Nat × Nat × Bool :=
  (idx.storedSections, idx.lastHead, idx.hasCheckpoint)

/-- Modelled from the spec: the configured section size constant
`params.BloomBitsBlocks` (params package not shipped; the design document
names 4096 as the example section size). -/
def BloomBitsBlocks : Nat := 4096

/-- Modelled from the spec: the light-client bloom-trie section frequency
constant `light.BloomTrieFrequency` (light package not shipped; the exact
value is irrelevant to the claims, only its identity as the constant
returned by the light status call). -/
def BloomTrieFrequency : Nat := 32768

/-- Modelled from the spec: the downloader sync-mode enumeration consumed
by the constructor (downloader package not shipped): full = 0, fast = 1,
light = 2; a mode is valid iff it is one of these three. -/
def LightSync : Nat := 2

/-- Modelled from the spec: validity test of a sync mode, true exactly on
the three declared modes. -/
def syncModeIsValid (m : Nat) : Bool :=
  decide (m ≤ 2)

/-- Configuration fields of `ath.New` that steer its control flow
(src/eth/backend.go): the sync mode plus the failure switches of the
fallible construction steps. -/
structure Config where
  syncMode : Nat
  dbFails : Bool
  genesisFails : Bool
  bcVersionMismatch : Bool
  blockchainFails : Bool
  protocolManagerFails : Bool
deriving DecidableEq

/-- Errors `ath.New` can return, in source order of their checks. -/
inductive NewError
  | lightMode
  | invalidSyncMode
  | dbFailure
  | genesisFailure
  | versionMismatch
  | blockchainFailure
  | protocolManagerFailure
deriving DecidableEq

/-- Construction steps of `ath.New` whose execution the model traces. -/
inductive Effect
  | createChainDb
  | setupGenesis
  | mkBloomRequests
  | mkBloomIndexer
  | mkBlockChain
  | startBloomIndexer
  | mkTxPool
  | mkProtocolManager
  | mkMiner
deriving DecidableEq

/-- Full node object as far as the claims observe it: its bloom indexer
and whether the bloom-request channel was created. -/
structure AtlantisNode where
  bloomIndexer : BloomIndexer
  bloomRequestsOpen : Bool
deriving DecidableEq

/-- Translation of `ath.New` (src/eth/backend.go lines 104-180): the two
sync-mode guards run before anything is constructed; the chain database,
the genesis setup, then the struct literal creating the bloom-request
channel and the bloom indexer via `NewBloomIndexer(chainDb,
params.BloomBitsBlocks)`; the later fallible steps follow in source
order. The second component lists the construction steps that ran. -/
def New (cfg : Config) : Except NewError AtlantisNode × List Effect :=
  if cfg.syncMode = LightSync then (Except.error NewError.lightMode, [])
  else if syncModeIsValid cfg.syncMode = false then
    (Except.error NewError.invalidSyncMode, [])
  else if cfg.dbFails then
    (Except.error NewError.dbFailure, [Effect.createChainDb])
  else if cfg.genesisFails then
    (Except.error NewError.genesisFailure,
      [Effect.createChainDb, Effect.setupGenesis])
  else if cfg.bcVersionMismatch then
    (Except.error NewError.versionMismatch,
      [Effect.createChainDb, Effect.setupGenesis, Effect.mkBloomRequests,
        Effect.mkBloomIndexer])
  else if cfg.blockchainFails then
    (Except.error NewError.blockchainFailure,
      [Effect.createChainDb, Effect.setupGenesis, Effect.mkBloomRequests,
        Effect.mkBloomIndexer, Effect.mkBlockChain])
  else if cfg.protocolManagerFails then
    (Except.error NewError.protocolManagerFailure,
      [Effect.createChainDb, Effect.setupGenesis, Effect.mkBloomRequests,
        Effect.mkBloomIndexer, Effect.mkBlockChain, Effect.startBloomIndexer,
        Effect.mkTxPool])
  else
    (Except.ok ⟨⟨BloomBitsBlocks, 0, 0, false⟩, true⟩,
      [Effect.createChainDb, Effect.setupGenesis, Effect.mkBloomRequests,
        Effect.mkBloomIndexer, Effect.mkBlockChain, Effect.startBloomIndexer,
        Effect.mkTxPool, Effect.mkProtocolManager, Effect.mkMiner])

/-- Translation of `EthAPIBackend.BloomStatus` (src/eth/api_backend.go
lines 219-222): `sections, _, _ := Sections(); return
params.BloomBitsBlocks, sections`. -/
def EthBloomStatus (node : AtlantisNode) : Nat × Nat :=
  (BloomBitsBlocks, (Sections node.bloomIndexer).1)

/-- Light node object as far as the claims observe it: its (possibly
absent) bloom indexer. -/
structure LightNode where
  bloomIndexer : Option BloomIndexer
deriving DecidableEq

/-- Translation of `LesApiBackend.BloomStatus` (src/les/api_backend.go
lines 187-193): a nil indexer yields (0, 0) without touching the indexer;
otherwise `sections, _, _ := Sections(); return light.BloomTrieFrequency,
sections`. -/
def LesBloomStatus (node : LightNode) : Nat × Nat :=
  match node.bloomIndexer with
  | none => (0, 0)
  | some idx => (BloomTrieFrequency, (Sections idx).1)

/-- Modelled from the spec: blooms of one section, in ascending block
order; block `s * size + off` sits at offset `off`. -/
def sectionBlooms (size : Nat) (chain : Nat → Bloom) (s : Nat) : List Bloom :=
  (List.range size).map (fun off => chain (s * size + off))

/-- Modelled from the spec (matcher, source file not shipped): a block is
reported through the index by testing, for each non-trivial OR-group of
the compiled query, the encoded bit-plane fragments of the block's
section at the block's offset; empty (wildcard) groups are skipped during
compilation and never exclude. -/
def matcherTestBlock (size : Nat) (chain : Nat → Bloom)
    (query : List (List Nat)) (b : Nat) : Bool :=
  (query.filter (fun g => !g.isEmpty)).all (fun g =>
    g.any (fun bit =>
      fragTestBit (bloomBitsEncode (sectionBlooms size chain (b / size)) bit)
        (b % size)))

/-- Modelled from the spec: the matcher session reports, in ascending
order, the blocks of the queried range `[lo, hi]` that the per-section
fragment evaluation accepts. -/
def matcherRun (size : Nat) (chain : Nat → Bloom) (query : List (List Nat))
    (lo hi : Nat) : List Nat :=
  (List.range' lo (hi + 1 - lo)).filter (matcherTestBlock size chain query)

/-- Ground truth stated literally by the claim: every OR-group of the query
has at least one of its bit positions set in the block's bloom filter. -/
def literalBlockMatch (query : List (List Nat)) (bloom : Bloom) : Bool :=
  query.all (fun g => g.any (fun bit => bloomHas bloom bit))

/-- Ground truth as amended: every OR-group is either empty (a wildcard,
which never excludes) or has at least one of its bit positions set in the
block's bloom filter. -/
def blockMatchWildcard (query : List (List Nat)) (bloom : Bloom) : Bool :=
  query.all (fun g => g.isEmpty || g.any (fun bit => bloomHas bloom bit))

/-- Chain of the concrete spec scenario: blocks 0 to 3 carry bloom bits
{5}, {}, {5,9}, {9}; all later blocks are empty. -/
def scenarioChain : Nat → Bloom
  | 0 => [5]
  | 1 => []
  | 2 => [5, 9]
  | 3 => [9]
  | _ + 4 => []

/-- Pending fragment retrieval request: bit plane, section index and the
time it entered the shared queue. -/
structure RetrievalReq where
  bit : Nat
  sectionIdx : Nat
  arrival : Nat
deriving DecidableEq

/-- Bounds handed to one multiplexing worker: the batch-size cap and the
wait ceiling. -/
structure WorkerConfig where
  batch : Nat
  wait : Nat
deriving DecidableEq

/-- Modelled from the spec: the retrieval service constants of the serving
packages (files not shipped): the number of multiplexing workers started
per session, the per-call batch bound and the batch wait ceiling. The
concrete values are not fixed by the design document; the claims depend
only on these constants being handed unchanged to every worker. -/
def bloomFilterThreads : Nat := 3

/-- Modelled from the spec: the batch-size bound passed to every
multiplexing worker. -/
def bloomRetrievalBatch : Nat := 16

/-- Modelled from the spec: the wait ceiling passed to every multiplexing
worker, in model time units. -/
def bloomRetrievalWait : Nat := 10

/-- Translation of `ServiceFilter` (src/eth/api_backend.go lines 224-228
and src/les/api_backend.go lines 195-199): `bloomFilterThreads` workers
are started, every one configured with exactly `bloomRetrievalBatch` and
`bloomRetrievalWait`. -/
def serviceFilterWorkers : List WorkerConfig :=
  List.replicate bloomFilterThreads ⟨bloomRetrievalBatch, bloomRetrievalWait⟩

/-- Modelled from the spec: one batch-assembly round of a worker: starting
from the first pending request it drains requests arriving within the
wait ceiling of the first arrival, cut to the batch bound, and hands the
batch to the backend in a single call. -/
def drainBatch (cfg : WorkerConfig) (queue : List RetrievalReq) : List RetrievalReq :=
  match queue with
  | [] => []
  | first :: _ =>
    (queue.filter (fun r => r.arrival ≤ first.arrival + cfg.wait)).take cfg.batch

/-- Modelled from the spec: the latest moment the assembled batch is
dispatched: the wait ceiling elapsing after the first pending arrival. -/
def dispatchDeadline (cfg : WorkerConfig) (queue : List RetrievalReq) : Nat :=
  match queue with
  | [] => 0
  | first :: _ => first.arrival + cfg.wait

/-- Shared queue discipline: requests are drained in arrival order. -/
def fifoOrdered (queue : List RetrievalReq) : Prop :=
  queue.Pairwise (fun a b => a.arrival ≤ b.arrival)

/-- Modelled from the spec: number of bit planes of a section, one per
bloom bit index. -/
def bloomPlanes : Nat := 2048

/-- Modelled from the spec: all 2048 bit-plane fragments of one section,
derived from the canonical chain through the codec. -/
def sectionFragments (size : Nat) (chain : Nat → Bloom) (s : Nat) : List (List Nat) :=
  (List.range bloomPlanes).map (fun bit => bloomBitsEncode (sectionBlooms size chain s) bit)

/-- Fragment store of the section indexer: entry `s` holds the persisted
fragments of stored section `s`. -/
structure IndexerDb where
  frags : List (List (List Nat))
deriving DecidableEq

/-- Modelled from the spec: the indexer having processed sections `0` to
`count - 1` in order from the canonical chain. -/
def processUpTo (size : Nat) (chain : Nat → Bloom) (count : Nat) : IndexerDb :=
  ⟨(List.range count).map (sectionFragments size chain)⟩

/-- Modelled from the spec: reorg invalidation at common ancestor `N`:
every stored section whose range extends beyond block `N` is invalidated;
exactly the complete sections inside blocks `0..N` (there are
`(N + 1) / size` of them) can survive. -/
def reorgInvalidate (size N : Nat) (db : IndexerDb) : IndexerDb :=
  ⟨db.frags.take ((N + 1) / size)⟩

/-- Modelled from the spec: reprocessing after an invalidation: the
sections from the first non-stored one up to `newCount - 1` are rebuilt in
increasing order from the new canonical chain. -/
def reprocess (size : Nat) (chain : Nat → Bloom) (db : IndexerDb)
    (newCount : Nat) : IndexerDb :=
  ⟨db.frags ++
    (List.range' db.frags.length (newCount - db.frags.length)).map
      (sectionFragments size chain)⟩

/-- Matcher session state: the section cursor, the last section of the
queried range, the cancellation flag, and the emitted results and issued
fragment requests so far. -/
structure MatchSession where
  cursor : Nat
  lastSection : Nat
  cancelled : Bool
  emitted : List Nat
  requested : List (Nat × Nat)
deriving DecidableEq

/-- Modelled from the spec: fragment requests the compiled query issues
for one section: one per bit position of every non-wildcard OR-group. -/
def neededRequests (query : List (List Nat)) (s : Nat) : List (Nat × Nat) :=
  ((query.filter (fun g => !g.isEmpty)).foldr (fun g acc => g ++ acc) []).map
    (fun bit => (bit, s))

/-- Modelled from the spec: blocks of section `s` the per-section fragment
evaluation accepts. -/
def sectionMatches (size : Nat) (chain : Nat → Bloom) (query : List (List Nat))
    (s : Nat) : List Nat :=
  ((List.range size).map (fun off => s * size + off)).filter
    (matcherTestBlock size chain query)

/-- Modelled from the spec: one section-boundary step of a matcher
session: cancellation is cooperative and checked at the boundary; an
uncancelled session that has not passed the end of its range requests the
fragments its query needs for the cursor section, emits that section's
matches in order, and advances the cursor. -/
def sessionStep (size : Nat) (chain : Nat → Bloom) (query : List (List Nat))
    (st : MatchSession) : MatchSession :=
  if st.cancelled || decide (st.lastSection < st.cursor) then st
  else
    ⟨st.cursor + 1, st.lastSection, st.cancelled,
      st.emitted ++ sectionMatches size chain query st.cursor,
      st.requested ++ neededRequests query st.cursor⟩

/-- Modelled from the spec: `Close()`/cancel raises the session's
cancellation flag; already-produced state is left in place. -/
def sessionClose (st : MatchSession) : MatchSession :=
  ⟨st.cursor, st.lastSection, true, st.emitted, st.requested⟩

/-- Iterated section-boundary steps of a session. -/
def sessionRun (size : Nat) (chain : Nat → Bloom) (query : List (List Nat)) :
    Nat → MatchSession → MatchSession
  | 0, st => st
  | k + 1, st => sessionRun size chain query k (sessionStep size chain query st)

/-- Observable state of the indexer's processing pipeline: planes
physically written per section, the count of sections observable as
Stored (all planes plus the completion checkpoint written), whether a
section unit is in flight (always the section at index `stored`), and
whether the indexer was closed. -/
structure IndexerProc where
  planes : Nat → Nat
  stored : Nat
  processing : Bool
  closed : Bool

/-- Fresh indexer: nothing written, nothing stored, idle, open. -/
def idxInit : IndexerProc := ⟨fun _ => 0, 0, false, false⟩

/-- Events driving the indexer's processing pipeline. -/
inductive IdxEvent
  | startSection
  | writePlane
  | commitSection
  | abortSection
  | closeIndexer
deriving DecidableEq

/-- Modelled from the spec: the indexer's processing pipeline. A section
unit starts only when idle; plane writes go to the in-flight section; the
completion checkpoint (making the section observable as Stored) is
written only once all `bloomPlanes` planes are; an abort drops the unit
without committing; close lets the in-flight unit abort cleanly and stops
the indexer, after which no event has any effect. -/
def idxStep (st : IndexerProc) : IdxEvent → IndexerProc
  | IdxEvent.startSection =>
    if st.closed || st.processing then st
    else ⟨fun s => if s = st.stored then 0 else st.planes s, st.stored, true, false⟩
  | IdxEvent.writePlane =>
    if st.closed || !st.processing then st
    else if st.planes st.stored < bloomPlanes then
      ⟨fun s => if s = st.stored then st.planes st.stored + 1 else st.planes s,
        st.stored, true, false⟩
    else st
  | IdxEvent.commitSection =>
    if st.closed || !st.processing then st
    else if st.planes st.stored = bloomPlanes then
      ⟨st.planes, st.stored + 1, false, false⟩
    else st
  | IdxEvent.abortSection =>
    if st.closed then st else ⟨st.planes, st.stored, false, false⟩
  | IdxEvent.closeIndexer =>
    ⟨st.planes, st.stored, false, true⟩

/-- Run of the indexer pipeline from the fresh state. -/
def idxRun (evs : List IdxEvent) : IndexerProc :=
  evs.foldl idxStep idxInit

/-- Modelled from the spec together with src: every section observable as
Stored has all of its planes durably written. -/
def idxInvariant (st : IndexerProc) : Prop :=
  ∀ s, s < st.stored → st.planes s = bloomPlanes

/-- Shutdown actions of the node, one per call of `Atlantis.Stop`. -/
inductive StopAction
  | closeBloomIndexer
  | stopBlockchain
  | stopProtocolManager
  | stopLesServer
  | stopTxPool
  | stopMiner
  | stopEventMux
  | closeChainDb
  | closeShutdownChan
deriving DecidableEq

/-- Translation of `Atlantis.Stop` (src/eth/backend.go lines 411-426): the
shutdown sequence in source order; the bloom indexer close comes first. -/
def atlantisStopSequence : List StopAction :=
  [StopAction.closeBloomIndexer, StopAction.stopBlockchain,
    StopAction.stopProtocolManager, StopAction.stopLesServer,
    StopAction.stopTxPool, StopAction.stopMiner, StopAction.stopEventMux,
    StopAction.closeChainDb, StopAction.closeShutdownChan]

/-- Effect of the node shutdown on the indexer: its first stop action,
the indexer close. -/
def atlantisStopIndexer (st : IndexerProc) : IndexerProc :=
  idxStep st IdxEvent.closeIndexer

theorem byteBits_testBit (f : Nat → Bool) (n p : Nat) :
    (byteBits f n).testBit p =
      (List.range n).any (fun k => decide (7 - k = p) && f k) := by
  induction n with
  | zero => simp [byteBits]
  | succ m ih =>
    rw [byteBits, Nat.testBit_or, ih, List.range_succ, List.any_append]
    cases h : f m with
    | false => simp [h, Nat.zero_testBit]
    | true => simp [h, Nat.testBit_two_pow]

theorem byteBits_testBit_at (f : Nat → Bool) (k : Nat) (hk : k < 8) :
    (byteBits f 8).testBit (7 - k) = f k := by
  rw [byteBits_testBit]
  have hr : List.range 8 = [0, 1, 2, 3, 4, 5, 6, 7] := rfl
  rw [hr]
  interval_cases k <;> simp

/-- Round trip of the codec at one offset, for any bit index. -/
theorem fragTestBit_encode (blooms : List Bloom) (bitIndex i : Nat)
    (hi : i < blooms.length) :
    fragTestBit (bloomBitsEncode blooms bitIndex) i =
      bloomHas (blooms.getD i []) bitIndex := by
  have hdiv : i / 8 < (blooms.length + 7) / 8 := by
    apply Nat.lt_of_mul_lt_mul_left (a := 8)
    calc 8 * (i / 8) ≤ i := Nat.mul_div_le i 8
    _ < blooms.length := hi
    _ ≤ 8 * ((blooms.length + 7) / 8) := by omega
  have hbyte : (bloomBitsEncode blooms bitIndex).getD (i / 8) 0 =
      fragmentByte blooms bitIndex (i / 8) := by
    unfold bloomBitsEncode
    rw [List.getD_eq_getElem?_getD, List.getElem?_map, List.getElem?_range hdiv]
    rfl
  unfold fragTestBit
  rw [hbyte]
  unfold fragmentByte
  rw [byteBits_testBit_at _ _ (Nat.mod_lt i (by omega))]
  have : 8 * (i / 8) + i % 8 = i := Nat.div_add_mod i 8
  rw [this]

theorem matcherTestBlock_eq (size : Nat) (hs : 0 < size) (chain : Nat → Bloom)
    (query : List (List Nat)) (b : Nat) :
    matcherTestBlock size chain query b = blockMatchWildcard query (chain b) := by
  have hoff : b % size < size := Nat.mod_lt b hs
  have hlen : b % size < (sectionBlooms size chain (b / size)).length := by
    simpa [sectionBlooms] using hoff
  have harg : b / size * size + b % size = b := by
    rw [Nat.mul_comm]
    exact Nat.div_add_mod b size
  have hchain : (sectionBlooms size chain (b / size)).getD (b % size) [] =
      chain b := by
    unfold sectionBlooms
    rw [List.getD_eq_getElem?_getD, List.getElem?_map, List.getElem?_range hoff]
    simp [harg]
  have hbit : ∀ bit,
      fragTestBit (bloomBitsEncode (sectionBlooms size chain (b / size)) bit)
        (b % size) = bloomHas (chain b) bit := by
    intro bit
    rw [fragTestBit_encode _ _ _ hlen, hchain]
  unfold matcherTestBlock blockMatchWildcard
  induction query with
  | nil => rfl
  | cons g rest ih =>
    cases hg : g.isEmpty with
    | true =>
      have hge : g = [] := List.isEmpty_iff.mp hg
      simpa [hge] using ih
    | false =>
      simp only [List.filter_cons, hg, Bool.not_false, if_pos, List.all_cons,
        Bool.false_or]
      rw [ih]
      simp only [hbit]

theorem mem_matcherRun (size : Nat) (hs : 0 < size) (chain : Nat → Bloom)
    (query : List (List Nat)) (lo hi b : Nat) :
    b ∈ matcherRun size chain query lo hi ↔
      lo ≤ b ∧ b ≤ hi ∧ blockMatchWildcard query (chain b) = true := by
  unfold matcherRun
  rw [List.mem_filter, List.mem_range']
  constructor
  · rintro ⟨⟨i, hi2, rfl⟩, hmatch⟩
    rw [matcherTestBlock_eq size hs] at hmatch
    exact ⟨by omega, by omega, hmatch⟩
  · rintro ⟨h1, h2, h3⟩
    refine ⟨⟨b - lo, by omega, by omega⟩, ?_⟩
    rw [matcherTestBlock_eq size hs]
    exact h3

/-- Claim C1 as stated fails: for the query consisting of one empty
OR-group over the all-empty chain, the matcher reports block 0 of range
[0,0] as a match (the empty group is a wildcard), yet the claim's literal
condition — every OR-group has at least one of its bit positions set in
the block's bloom filter — is false there. -/
theorem C1_matcher_iff_counterexample :
    matcherRun 4 chainEmptyBlooms [[]] 0 0 = [0] ∧
      literalBlockMatch [[]] (chainEmptyBlooms 0) = false := by
  decide

/-- Claim C1 (amended): for every filter query and every block, the
matcher — evaluating the encoded bit-plane fragments of the block's
section, never the blooms directly — reports the block iff it lies in the
queried range and every non-empty OR-group of the query has at least one
of its bit positions set in the block's actual bloom filter, empty
OR-groups being wildcards that never exclude; and in the concrete
scenario (sectionSize 4, blocks 0-3 with bloom bits {5}, {}, {5,9}, {9})
the query [{5}] over [0,3] yields exactly blocks {0,2} and the query
[{5},{9}] yields exactly block {2}. -/
theorem C1_matcher_query_correctness (size : Nat) (hs : 0 < size)
    (chain : Nat → Bloom) (query : List (List Nat)) (lo hi b : Nat) :
    (b ∈ matcherRun size chain query lo hi ↔
      lo ≤ b ∧ b ≤ hi ∧ blockMatchWildcard query (chain b) = true) ∧
    matcherRun 4 scenarioChain [[5]] 0 3 = [0, 2] ∧
    matcherRun 4 scenarioChain [[5], [9]] 0 3 = [2] :=
  ⟨mem_matcherRun size hs chain query lo hi b, by decide, by decide⟩

/-- Witness for C1: the amended theorem applied at the concrete scenario,
block 0 of range [0,3] with query [{5}]. -/
theorem C1_matcher_query_correctness_witness :
    0 < 4 ∧
      (0 ∈ matcherRun 4 scenarioChain [[5]] 0 3 ↔
        0 ≤ 0 ∧ 0 ≤ 3 ∧ blockMatchWildcard [[5]] (scenarioChain 0) = true) :=
  ⟨by decide,
    (C1_matcher_query_correctness 4 (by decide) scenarioChain [[5]] 0 3 0).1⟩

/-- Claim C2: encoding one section's ordered bloom filters with the
bit-plane codec and then testing bit (bitIndex, i) of the produced
fragment — at byte i/8 and bit i%8 within that byte — returns set exactly
when the i-th block's bloom filter has bitIndex set. -/
theorem C2_encode_test_roundtrip (blooms : List Bloom) (bitIndex i : Nat)
    (_hbit : bitIndex < 2048) (hi : i < blooms.length) :
    fragTestBit (bloomBitsEncode blooms bitIndex) i =
      bloomHas (blooms.getD i []) bitIndex :=
  fragTestBit_encode blooms bitIndex i hi

/-- Witness for C2: the round trip applied to the scenario section at bit
index 5, offset 2. -/
theorem C2_encode_test_roundtrip_witness :
    5 < 2048 ∧ 2 < ([[5], [], [5, 9], [9]] : List Bloom).length ∧
      fragTestBit (bloomBitsEncode [[5], [], [5, 9], [9]] 5) 2 =
        bloomHas (([[5], [], [5, 9], [9]] : List Bloom).getD 2 []) 5 :=
  ⟨by decide, by decide,
    C2_encode_test_roundtrip [[5], [], [5, 9], [9]] 5 2 (by decide) (by decide)⟩

/-- Claim C3 as stated fails: at an indexer state with 2 stored sections
and last head 11, the status call returns (BloomBitsBlocks, 2) — the
configured section size and the stored count — not (storedSections,
lastHead) = (2, 11). -/
theorem C3_bloom_status_counterexample :
    EthBloomStatus ⟨⟨BloomBitsBlocks, 2, 11, true⟩, true⟩ ≠
      ((Sections ⟨BloomBitsBlocks, 2, 11, true⟩).1,
        (Sections ⟨BloomBitsBlocks, 2, 11, true⟩).2.1) := by
  decide

/-- Claim C3 (amended): for every node state, BloomStatus returns the pair
(BloomBitsBlocks, storedSections): its first component is the configured
section-size constant and its second component is the number of
completely stored sections reported by the indexer's Sections(); the last
indexed head is not part of the result. -/
theorem C3_bloom_status (node : AtlantisNode) :
    EthBloomStatus node = (BloomBitsBlocks, (Sections node.bloomIndexer).1) ∧
      (EthBloomStatus node).2 = node.bloomIndexer.storedSections :=
  ⟨rfl, rfl⟩

/-- Claim C8: the full-node constructor returns an error and no service
object when the sync mode is LightSync, and likewise when it is invalid;
in both cases it fails before creating the chain database, the
bloom-request channel or the bloom indexer (the construction trace is
empty). -/
theorem C8_new_rejects_light_and_invalid (cfg : Config) :
    (cfg.syncMode = LightSync →
      New cfg = (Except.error NewError.lightMode, [])) ∧
    (cfg.syncMode ≠ LightSync → syncModeIsValid cfg.syncMode = false →
      New cfg = (Except.error NewError.invalidSyncMode, [])) := by
  constructor
  · intro h
    unfold New
    rw [if_pos h]
  · intro hne h
    unfold New
    rw [if_neg hne, if_pos h]

/-- Witness for C8: the constructor applied to a light-mode configuration
and to one with the invalid sync mode 7. -/
theorem C8_new_rejects_light_and_invalid_witness :
    New ⟨2, false, false, false, false, false⟩ =
      (Except.error NewError.lightMode, []) ∧
    New ⟨7, false, false, false, false, false⟩ =
      (Except.error NewError.invalidSyncMode, []) :=
  ⟨(C8_new_rejects_light_and_invalid ⟨2, false, false, false, false, false⟩).1
      rfl,
    (C8_new_rejects_light_and_invalid ⟨7, false, false, false, false, false⟩).2
      (by decide) rfl⟩

/-- Claim C9: for every successfully constructed full node, the first
component of BloomStatus is exactly the section size the bloom indexer
was constructed with in New, so the status-reported section size and the
indexer's configured section size never diverge. -/
theorem C9_status_matches_indexer_section_size (cfg : Config)
    (node : AtlantisNode) (h : (New cfg).1 = Except.ok node) :
    (EthBloomStatus node).1 = node.bloomIndexer.sectionSize := by
  unfold New at h
  split_ifs at h
  all_goals simp_all
  subst h
  rfl

/-- Witness for C9: the full-sync default configuration constructs a node
whose status section size matches its indexer configuration. -/
theorem C9_status_matches_indexer_section_size_witness :
    (New ⟨0, false, false, false, false, false⟩).1 =
      Except.ok (⟨⟨BloomBitsBlocks, 0, 0, false⟩, true⟩ : AtlantisNode) ∧
    (EthBloomStatus ⟨⟨BloomBitsBlocks, 0, 0, false⟩, true⟩).1 =
      (⟨⟨BloomBitsBlocks, 0, 0, false⟩, true⟩ : AtlantisNode).bloomIndexer.sectionSize :=
  ⟨rfl,
    C9_status_matches_indexer_section_size ⟨0, false, false, false, false, false⟩
      ⟨⟨BloomBitsBlocks, 0, 0, false⟩, true⟩ rfl⟩

/-- Claim C10: the light status call is total: whenever the node's bloom
indexer is nil it returns (0, 0) without dereferencing the indexer, and
otherwise it returns (BloomTrieFrequency, storedSections) where
storedSections is the first component of the indexer's Sections(). -/
theorem C10_les_bloom_status_total (node : LightNode) :
    (node.bloomIndexer = none → LesBloomStatus node = (0, 0)) ∧
    (∀ idx, node.bloomIndexer = some idx →
      LesBloomStatus node = (BloomTrieFrequency, (Sections idx).1)) := by
  constructor
  · intro h
    unfold LesBloomStatus
    rw [h]
  · intro idx h
    unfold LesBloomStatus
    rw [h]

/-- Witness for C10: the light status call on a node with no indexer and
on one with an indexer holding 3 stored sections. -/
theorem C10_les_bloom_status_total_witness :
    LesBloomStatus ⟨none⟩ = (0, 0) ∧
      LesBloomStatus ⟨some ⟨BloomBitsBlocks, 3, 7, true⟩⟩ =
        (BloomTrieFrequency, (Sections ⟨BloomBitsBlocks, 3, 7, true⟩).1) :=
  ⟨(C10_les_bloom_status_total ⟨none⟩).1 rfl,
    (C10_les_bloom_status_total ⟨some ⟨BloomBitsBlocks, 3, 7, true⟩⟩).2
      ⟨BloomBitsBlocks, 3, 7, true⟩ rfl⟩

theorem drainBatch_bounds (cfg : WorkerConfig) (queue : List RetrievalReq)
    (hq : fifoOrdered queue) :
    (drainBatch cfg queue).length ≤ cfg.batch ∧
      ∀ r ∈ drainBatch cfg queue,
        r.arrival ≤ dispatchDeadline cfg queue ∧
          dispatchDeadline cfg queue - r.arrival ≤ cfg.wait := by
  cases queue with
  | nil => simp [drainBatch]
  | cons first rest =>
    refine ⟨List.length_take_le _ _, ?_⟩
    intro r hr
    have hr1 : r ∈ (first :: rest).filter
        (fun r => r.arrival ≤ first.arrival + cfg.wait) :=
      List.mem_of_mem_take hr
    rcases List.mem_filter.mp hr1 with ⟨hr3, hr2⟩
    have hle : r.arrival ≤ first.arrival + cfg.wait := by simpa using hr2
    have hfirst : first.arrival ≤ r.arrival := by
      rcases List.mem_cons.mp hr3 with h | h
      · rw [h]
      · exact (List.pairwise_cons.mp hq).1 r h
    have hdl : dispatchDeadline cfg (first :: rest) = first.arrival + cfg.wait :=
      rfl
    rw [hdl]
    omega

/-- Claim C4: ServiceFilter configures every multiplexing worker it starts
with exactly the bounds bloomRetrievalBatch and bloomRetrievalWait, and a
worker so configured never hands the backend more than its batch bound of
items in one call, while every request included in the dispatched batch
has waited at most the wait ceiling since its arrival when the batch is
dispatched. -/
theorem C4_scheduler_batching_bounds (queue : List RetrievalReq)
    (hq : fifoOrdered queue) :
    (∀ w ∈ serviceFilterWorkers,
      w = ⟨bloomRetrievalBatch, bloomRetrievalWait⟩) ∧
    (∀ w ∈ serviceFilterWorkers,
      (drainBatch w queue).length ≤ w.batch ∧
        ∀ r ∈ drainBatch w queue,
          r.arrival ≤ dispatchDeadline w queue ∧
            dispatchDeadline w queue - r.arrival ≤ w.wait) := by
  constructor
  · intro w hw
    exact (List.eq_of_mem_replicate hw)
  · intro w _
    exact drainBatch_bounds w queue hq

/-- Witness for C4: the bounds applied to the worker configuration of
ServiceFilter on a two-element arrival-ordered queue. -/
theorem C4_scheduler_batching_bounds_witness :
    fifoOrdered [⟨1, 0, 5⟩, ⟨2, 0, 6⟩] ∧
      (drainBatch ⟨bloomRetrievalBatch, bloomRetrievalWait⟩
          [⟨1, 0, 5⟩, ⟨2, 0, 6⟩]).length ≤
        (⟨bloomRetrievalBatch, bloomRetrievalWait⟩ : WorkerConfig).batch :=
  ⟨by unfold fifoOrdered; decide,
    ((C4_scheduler_batching_bounds [⟨1, 0, 5⟩, ⟨2, 0, 6⟩]
          (by unfold fifoOrdered; decide)).2
        ⟨bloomRetrievalBatch, bloomRetrievalWait⟩ (by decide)).1⟩

theorem sessionStep_close (size : Nat) (chain : Nat → Bloom)
    (query : List (List Nat)) (st : MatchSession) :
    sessionStep size chain query (sessionClose st) = sessionClose st := by
  unfold sessionStep sessionClose
  simp

theorem sessionRun_close (size : Nat) (chain : Nat → Bloom)
    (query : List (List Nat)) (k : Nat) (st : MatchSession) :
    sessionRun size chain query k (sessionClose st) = sessionClose st := by
  induction k with
  | zero => rfl
  | succ m ih =>
    rw [sessionRun, sessionStep_close]
    exact ih

/-- Claim C6: after Close/cancel the session halts at the very next
section-boundary check (within at most one further section-boundary
step), emits no further results, issues no further fragment requests to
the scheduler over any number of further steps, and every result emitted
before cancellation remains in place. -/
theorem C6_session_cancellation (size : Nat) (chain : Nat → Bloom)
    (query : List (List Nat)) (st : MatchSession) (k : Nat) :
    sessionStep size chain query (sessionClose st) = sessionClose st ∧
    (sessionClose st).emitted = st.emitted ∧
    (sessionRun size chain query k (sessionClose st)).emitted = st.emitted ∧
    (sessionRun size chain query k (sessionClose st)).requested = st.requested := by
  refine ⟨sessionStep_close size chain query st, rfl, ?_, ?_⟩ <;>
    rw [sessionRun_close] <;> rfl

theorem idxStep_invariant (st : IndexerProc) (e : IdxEvent)
    (h : idxInvariant st) : idxInvariant (idxStep st e) := by
  cases e with
  | startSection =>
    simp only [idxStep]
    split_ifs with h1
    · exact h
    · intro s hs
      have hne : s ≠ st.stored := Nat.ne_of_lt hs
      simpa [hne] using h s hs
  | writePlane =>
    simp only [idxStep]
    split_ifs with h1 h2
    · exact h
    · intro s hs
      have hne : s ≠ st.stored := Nat.ne_of_lt hs
      simpa [hne] using h s hs
    · exact h
  | commitSection =>
    simp only [idxStep]
    split_ifs with h1 h2
    · exact h
    · intro s hs
      rcases Nat.lt_succ_iff_lt_or_eq.mp hs with h3 | h3
      · exact h s h3
      · rw [h3]
        exact h2
    · exact h
  | abortSection =>
    simp only [idxStep]
    split_ifs
    · exact h
    · exact h
  | closeIndexer => exact h

theorem idxRun_invariant_aux (evs : List IdxEvent) (st : IndexerProc)
    (h : idxInvariant st) : idxInvariant (evs.foldl idxStep st) := by
  induction evs generalizing st with
  | nil => exact h
  | cons e rest ih => exact ih _ (idxStep_invariant st e h)

/-- Every reachable state of the indexer pipeline satisfies the
no-partial-Stored invariant. -/
theorem idxRun_invariant (evs : List IdxEvent) : idxInvariant (idxRun evs) :=
  idxRun_invariant_aux evs idxInit (fun s hs => absurd hs (Nat.not_lt_zero s))

/-- Claim C7: the node shutdown's first action is the bloom indexer close;
the close leaves no section unit in flight (the current unit has
completed or aborted cleanly), does not change which sections are Stored,
and in no reachable state — before or after the shutdown — is a section
observable as Stored without all bloomPlanes planes written ahead of its
completion checkpoint. -/
theorem C7_shutdown_no_partial_stored (evs : List IdxEvent) :
    atlantisStopSequence.head? = some StopAction.closeBloomIndexer ∧
    (atlantisStopIndexer (idxRun evs)).processing = false ∧
    (atlantisStopIndexer (idxRun evs)).closed = true ∧
    (atlantisStopIndexer (idxRun evs)).stored = (idxRun evs).stored ∧
    idxInvariant (idxRun evs) ∧
    idxInvariant (atlantisStopIndexer (idxRun evs)) :=
  ⟨rfl, rfl, rfl, rfl, idxRun_invariant evs,
    idxStep_invariant _ _ (idxRun_invariant evs)⟩

/-- Claim C5: after a reorganization with common ancestor N followed by
reprocessing, every stored section whose range lies entirely at or below
block N keeps byte-identical fragments, and every section of the new
stored range whose range extends beyond N is rebuilt so that its
fragments are exactly the new canonical chain's encoded filters. -/
theorem C5_reorg_frame (size count newCount N : Nat) (hs : 0 < size)
    (oldChain newChain : Nat → Bloom) :
    (∀ s, s < count → (s + 1) * size - 1 ≤ N →
      (reprocess size newChain
          (reorgInvalidate size N (processUpTo size oldChain count))
          newCount).frags[s]? =
        (processUpTo size oldChain count).frags[s]?) ∧
    (∀ s, s < newCount → N < (s + 1) * size - 1 →
      (reprocess size newChain
          (reorgInvalidate size N (processUpTo size oldChain count))
          newCount).frags[s]? = some (sectionFragments size newChain s)) := by
  have hplen : (processUpTo size oldChain count).frags.length = count := by
    simp [processUpTo]
  have hR : (reprocess size newChain
      (reorgInvalidate size N (processUpTo size oldChain count))
      newCount).frags =
      (processUpTo size oldChain count).frags.take ((N + 1) / size) ++
        (List.range'
            ((processUpTo size oldChain count).frags.take ((N + 1) / size)).length
            (newCount -
              ((processUpTo size oldChain count).frags.take
                  ((N + 1) / size)).length)).map
          (sectionFragments size newChain) := rfl
  constructor
  · intro s hcount hN
    have hpos : 1 ≤ (s + 1) * size := Nat.mul_pos (Nat.succ_pos s) hs
    have hks : s + 1 ≤ (N + 1) / size :=
      (Nat.le_div_iff_mul_le hs).mpr (by omega)
    have hcond : s <
        ((processUpTo size oldChain count).frags.take ((N + 1) / size)).length := by
      rw [List.length_take, hplen]
      omega
    rw [hR, List.getElem?_append, if_pos hcond, List.getElem?_take,
      if_pos (by omega)]
  · intro s hnew hN
    have hpos : 1 ≤ (s + 1) * size := Nat.mul_pos (Nat.succ_pos s) hs
    have hdiv : (N + 1) / size < s + 1 :=
      (Nat.div_lt_iff_lt_mul hs).mpr (by omega)
    have hlen2 :
        ((processUpTo size oldChain count).frags.take ((N + 1) / size)).length ≤
          s := by
      rw [List.length_take, hplen]
      omega
    rw [hR, List.getElem?_append_right hlen2, List.getElem?_map]
    set t := ((processUpTo size oldChain count).frags.take ((N + 1) / size)).length
      with ht
    rw [List.getElem?_range' t 1 (show s - t < newCount - t by omega)]
    have harg : t + 1 * (s - t) = s := by omega
    rw [harg]
    rfl

/-- Witness for C5: with section size 4, two stored sections, common
ancestor 3 and reprocessing to two sections, section 0 (blocks 0-3, all
at or below 3) keeps its fragments and section 1 (blocks 4-7, beyond 3)
is rebuilt from the new chain. -/
theorem C5_reorg_frame_witness :
    0 < 4 ∧
      (reprocess 4 chainEmptyBlooms
          (reorgInvalidate 4 3 (processUpTo 4 scenarioChain 2)) 2).frags[0]? =
        (processUpTo 4 scenarioChain 2).frags[0]? ∧
      (reprocess 4 chainEmptyBlooms
          (reorgInvalidate 4 3 (processUpTo 4 scenarioChain 2)) 2).frags[1]? =
        some (sectionFragments 4 chainEmptyBlooms 1) :=
  ⟨by decide,
    (C5_reorg_frame 4 2 2 3 (by decide) scenarioChain chainEmptyBlooms).1 0
      (by decide) (by decide),
    (C5_reorg_frame 4 2 2 3 (by decide) scenarioChain chainEmptyBlooms).2 1
      (by decide) (by decide)⟩

end Atlantis
